import Mathlib

/-!
Verification of the PromptBank prompt-store pipeline.

This file gives a shallow embedding of the vector-store client in
`src/server/awsVectorStore.ts` and of the tool-handler guards in
`src/server/server.ts`, and proves the specified properties about them.

Modelling conventions:
* Strings are treated as their lists of Unicode scalar values; lengths count
  scalars (the source counts UTF-16 code units, which agree on the inputs at
  issue here).
* JavaScript `toLowerCase` is modelled on the ASCII range, the only range the
  derivations here exercise.
* The external services (Bedrock embedding, S3 Vectors) are modelled by an
  explicit store state plus an environment carrying the embedding function,
  the clock value and the generated UUID for one call.
* `createHash("sha256")` is modelled by a full executable SHA-256 over the
  UTF-8 bytes of the input, as in Node's crypto module.
-/

namespace PromptBank

/-- The character class of the JavaScript regex `\s` (and of `String.trim`):
ASCII whitespace, NBSP, the Unicode space separators, line separators and BOM. -/
def jsWs (c : Char) : Bool :=
  let n := c.toNat
  n = 32 || n = 9 || n = 10 || n = 11 || n = 12 || n = 13 ||
  n = 160 || n = 5760 || (8192 ≤ n && n ≤ 8202) ||
  n = 8232 || n = 8233 || n = 8239 || n = 8287 || n = 12288 || n = 65279

/-- JavaScript `replace(/\s+/g, " ")`: each maximal run of whitespace becomes a
single space. The flag records whether the previous character was whitespace. -/
def collapseRuns : Bool → List Char → List Char
  | _, [] => []
  | prevWs, c :: rest =>
    if jsWs c then
      if prevWs then collapseRuns true rest
      else ' ' :: collapseRuns true rest
    else c :: collapseRuns false rest

/-- JavaScript `trim()`. -/
def trimChars (cs : List Char) : List Char :=
  ((cs.dropWhile jsWs).reverse.dropWhile jsWs).reverse

/-- JavaScript `trimEnd()`. -/
def trimEndChars (cs : List Char) : List Char :=
  (cs.reverse.dropWhile jsWs).reverse

/-- JavaScript `toLowerCase()` restricted to the ASCII range. -/
def lowerChar (c : Char) : Char :=
  if 65 ≤ c.toNat ∧ c.toNat ≤ 90 then Char.ofNat (c.toNat + 32) else c

/-- UTF-8 encoding of one Unicode scalar value, as a list of byte values. -/
def utf8Char (c : Char) : List Nat :=
  let n := c.toNat
  if n < 128 then [n]
  else if n < 2048 then [192 + n / 64, 128 + n % 64]
  else if n < 65536 then [224 + n / 4096, 128 + (n / 64) % 64, 128 + n % 64]
  else [240 + n / 262144, 128 + (n / 4096) % 64, 128 + (n / 64) % 64, 128 + n % 64]

/-- UTF-8 encoding of a string's scalars. -/
def utf8Encode (cs : List Char) : List Nat :=
  (cs.map utf8Char).flatten

/-! ### SHA-256 (FIPS 180-4), over byte lists, words as naturals mod 2^32 -/

/-- Truncate to a 32-bit word. -/
def w32 (n : Nat) : Nat := n % 4294967296

/-- 32-bit modular addition. -/
def add32 (a b : Nat) : Nat := w32 (a + b)

/-- Bitwise complement on 32 bits. -/
def not32 (a : Nat) : Nat := Nat.xor a 4294967295

/-- Right rotation of a 32-bit word by `n` places. -/
def rotr32 (n x : Nat) : Nat :=
  w32 (Nat.lor (Nat.shiftRight x n) (Nat.shiftLeft x (32 - n)))

/-- Logical right shift. -/
def shr32 (n x : Nat) : Nat := Nat.shiftRight x n

/-- SHA-256 Σ0. -/
def bsig0 (x : Nat) : Nat := Nat.xor (Nat.xor (rotr32 2 x) (rotr32 13 x)) (rotr32 22 x)

/-- SHA-256 Σ1. -/
def bsig1 (x : Nat) : Nat := Nat.xor (Nat.xor (rotr32 6 x) (rotr32 11 x)) (rotr32 25 x)

/-- SHA-256 σ0. -/
def ssig0 (x : Nat) : Nat := Nat.xor (Nat.xor (rotr32 7 x) (rotr32 18 x)) (shr32 3 x)

/-- SHA-256 σ1. -/
def ssig1 (x : Nat) : Nat := Nat.xor (Nat.xor (rotr32 17 x) (rotr32 19 x)) (shr32 10 x)

/-- SHA-256 choose function. -/
def shaCh (x y z : Nat) : Nat := Nat.xor (Nat.land x y) (Nat.land (not32 x) z)

/-- SHA-256 majority function. -/
def shaMaj (x y z : Nat) : Nat :=
  Nat.xor (Nat.xor (Nat.land x y) (Nat.land x z)) (Nat.land y z)

/-- The 64 SHA-256 round constants. -/
def shaK : List Nat :=
  [1116352408, 1899447441, 3049323471, 3921009573, 961987163,
   1508970993, 2453635748, 2870763221, 3624381080, 310598401,
   607225278, 1426881987, 1925078388, 2162078206, 2614888103,
   3248222580, 3835390401, 4022224774, 264347078, 604807628,
   770255983, 1249150122, 1555081692, 1996064986, 2554220882,
   2821834349, 2952996808, 3210313671, 3336571891, 3584528711,
   113926993, 338241895, 666307205, 773529912, 1294757372,
   1396182291, 1695183700, 1986661051, 2177026350, 2456956037,
   2730485921, 2820302411, 3259730800, 3345764771, 3516065817,
   3600352804, 4094571909, 275423344, 430227734, 506948616,
   659060556, 883997877, 958139571, 1322822218, 1537002063,
   1747873779, 1955562222, 2024104815, 2227730452, 2361852424,
   2428436474, 2756734187, 3204031479, 3329325298]

/-- The SHA-256 initial hash value. -/
def shaH0 : List Nat :=
  [1779033703, 3144134277, 1013904242,
   2773480762, 1359893119, 2600822924,
   528734635, 1541459225]

/-- Big-endian byte decomposition of a natural, `k` bytes. -/
def beBytes : Nat → Nat → List Nat
  | 0, _ => []
  | k + 1, n => beBytes k (n / 256) ++ [n % 256]

/-- SHA-256 message padding: append `0x80`, zeros and the 64-bit message
bit length, reaching a multiple of 64 bytes. -/
def shaPad (msg : List Nat) : List Nat :=
  let len := msg.length
  let padZeros := (64 - (len + 9) % 64) % 64
  msg ++ [128] ++ List.replicate padZeros 0 ++ beBytes 8 (8 * len)

/-- Pack bytes into big-endian 32-bit words, four bytes per word. -/
def wordsOfBytes : List Nat → List Nat
  | a :: b :: c :: d :: rest => (((a * 256 + b) * 256 + c) * 256 + d) :: wordsOfBytes rest
  | _ => []

/-- Split a word list into 16-word blocks; the fuel is the list length. -/
def chunk16Go : Nat → List Nat → List (List Nat)
  | 0, _ => []
  | _, [] => []
  | fuel + 1, w :: ws => (w :: ws).take 16 :: chunk16Go fuel ((w :: ws).drop 16)

/-- Split a word list into 16-word blocks. -/
def chunk16 (ws : List Nat) : List (List Nat) := chunk16Go ws.length ws

/-- Extend the message schedule `count` more words; the accumulator is the
schedule so far, most recent word first. -/
def extendSchedule : Nat → List Nat → List Nat
  | 0, rev => rev
  | k + 1, rev =>
    let nw := add32 (add32 (ssig1 (rev.getD 1 0)) (rev.getD 6 0))
      (add32 (ssig0 (rev.getD 14 0)) (rev.getD 15 0))
    extendSchedule k (nw :: rev)

/-- The 64-word message schedule of one block. -/
def schedule (block : List Nat) : List Nat :=
  (extendSchedule 48 block.reverse).reverse

/-- The eight SHA-256 working variables. -/
structure Sha8 where
  a : Nat
  b : Nat
  c : Nat
  d : Nat
  e : Nat
  f : Nat
  g : Nat
  h : Nat

/-- One SHA-256 round, consuming a round constant paired with a schedule word. -/
def compressStep (st : Sha8) (kw : Nat × Nat) : Sha8 :=
  let t1 := add32 st.h (add32 (bsig1 st.e) (add32 (shaCh st.e st.f st.g) (add32 kw.1 kw.2)))
  let t2 := add32 (bsig0 st.a) (shaMaj st.a st.b st.c)
  ⟨add32 t1 t2, st.a, st.b, st.c, add32 st.d t1, st.e, st.f, st.g⟩

/-- Compression of one 16-word block into the running hash value. -/
def compressBlock (hs : List Nat) (block : List Nat) : List Nat :=
  let ws := schedule block
  let init : Sha8 :=
    ⟨hs.getD 0 0, hs.getD 1 0, hs.getD 2 0, hs.getD 3 0,
     hs.getD 4 0, hs.getD 5 0, hs.getD 6 0, hs.getD 7 0⟩
  let fin := (shaK.zip ws).foldl compressStep init
  [add32 (hs.getD 0 0) fin.a, add32 (hs.getD 1 0) fin.b,
   add32 (hs.getD 2 0) fin.c, add32 (hs.getD 3 0) fin.d,
   add32 (hs.getD 4 0) fin.e, add32 (hs.getD 5 0) fin.f,
   add32 (hs.getD 6 0) fin.g, add32 (hs.getD 7 0) fin.h]

/-- SHA-256 digest of a byte list, as the 32 digest bytes. -/
def sha256Bytes (msg : List Nat) : List Nat :=
  let blocks := chunk16 (wordsOfBytes (shaPad msg))
  ((blocks.foldl compressBlock shaH0).map (beBytes 4)).flatten

/-- One lowercase hex digit. -/
def hexDigit (n : Nat) : Char :=
  if n < 10 then Char.ofNat (48 + n) else Char.ofNat (87 + n)

/-- Lowercase hex rendering of a byte list. -/
def hexOfBytes (bs : List Nat) : List Char :=
  (bs.map (fun b => [hexDigit (b / 16 % 16), hexDigit (b % 16)])).flatten

/-! ### The pure text functions of `awsVectorStore.ts` -/

/-- `normalizePromptForKey` (awsVectorStore.ts:55): collapse whitespace runs,
trim, lowercase. -/
def normalizePromptForKey (text : String) : String :=
  String.mk ((trimChars (collapseRuns false text.data)).map lowerChar)

/-- The first 32 hex digits of the SHA-256 of the normalized text: the
content hash `promptKeyFromText` puts after its `p-` marker. -/
def keyHash (text : String) : List Char :=
  (hexOfBytes (sha256Bytes (utf8Encode (normalizePromptForKey text).data))).take 32

/-- `promptKeyFromText` (awsVectorStore.ts:59): `p-` followed by the first 32
hex digits of the SHA-256 of the normalized text. -/
def promptKeyFromText (text : String) : String :=
  String.mk ('p' :: '-' :: keyHash text)

/-- `previewText` (awsVectorStore.ts:115) with the default `maxLen = 160`:
collapse and trim whitespace; if at most 160 characters return as is, else cut
to 159 characters, trim the end and append the ellipsis character. -/
def previewText (text : String) : String :=
  let normalized := trimChars (collapseRuns false text.data)
  if normalized.length ≤ 160 then String.mk normalized
  else String.mk (trimEndChars (normalized.take 159) ++ ['…'])

/-- Number of maximal whitespace-free runs; the flag records whether the
previous character was not whitespace. -/
def countRuns : Bool → List Char → Nat
  | _, [] => 0
  | prevNon, c :: rest =>
    if jsWs c then countRuns false rest
    else (if prevNon then 0 else 1) + countRuns true rest

/-- `wordCount` (awsVectorStore.ts:121): 0 for blank text, else the number of
nonempty whitespace-delimited tokens of the trimmed text. -/
def wordCount (text : String) : Nat :=
  countRuns false (trimChars text.data)

/-- A character is kept by the index-name cleaner iff it lies in `[a-z0-9-]`;
every other character is replaced by a hyphen (the `[^a-z0-9-]` regex). -/
def dashNonAlnum (c : Char) : Char :=
  if ('a' ≤ c ∧ c ≤ 'z') ∨ ('0' ≤ c ∧ c ≤ '9') ∨ c = '-' then c else '-'

/-- Collapse runs of hyphens to a single hyphen (the regex that replaces hyphen runs). -/
def collapseDashes : Bool → List Char → List Char
  | _, [] => []
  | prevDash, c :: rest =>
    if c = '-' then
      if prevDash then collapseDashes true rest
      else '-' :: collapseDashes true rest
    else c :: collapseDashes false rest

/-- Remove leading hyphens (the leading-hyphen regex replacement). -/
def dropLeadDashes (cs : List Char) : List Char :=
  cs.dropWhile (fun c => c = '-')

/-- Remove trailing hyphens (the trailing-hyphen regex replacement). -/
def dropTailDashes (cs : List Char) : List Char :=
  (cs.reverse.dropWhile (fun c => c = '-')).reverse

/-- `userIndexName` (awsVectorStore.ts:81): lowercase, restrict to
`[a-z0-9-]`, collapse and strip hyphens, fall back to a hash when empty, and
truncate with a hash suffix above 63 characters. -/
def userIndexName (userSub : String) : String :=
  let lower := userSub.data.map lowerChar
  let cleaned := dropTailDashes (dropLeadDashes (collapseDashes false (lower.map dashNonAlnum)))
  let hash := (hexOfBytes (sha256Bytes (utf8Encode userSub.data))).take 16
  let base := if cleaned.length > 0 then 'u' :: '-' :: cleaned else 'u' :: '-' :: hash
  if base.length ≤ 63 then String.mk base
  else
    let tail := '-' :: hash
    let maxPfx := 63 - tail.length
    String.mk (dropTailDashes (base.take maxPfx) ++ tail)

/-! ### The store data model -/

/-- The metadata written alongside each vector (awsVectorStore.ts:26).
Optional fields model the `field?: T` members; `length` counts the scalar
values of `text`. -/
structure PromptMetadata where
  schemaVersion : Nat
  modelId : String
  text : String
  preview : String
  title : Option String
  tags : Option (List String)
  source : Option String
  uploadId : Option String
  chunkIndex : Option Nat
  chunkCount : Option Nat
  createdAt : String
  updatedAt : String
  length : Nat
  wordCount : Nat
deriving DecidableEq

/-- An embedding vector, as returned by the Bedrock model. -/
abbrev Vec := List Int

/-- One stored vector: key, embedding data and metadata (a `PutInputVector`). -/
structure StoredVec where
  key : String
  data : Vec
  metadata : PromptMetadata
deriving DecidableEq

/-- One S3 Vectors index: its dimension and its records. -/
structure IndexState where
  dimension : Nat
  records : List StoredVec
deriving DecidableEq

/-- The vector bucket: the indexes it holds, by name. -/
structure StoreState where
  indexes : List (String × IndexState)
deriving DecidableEq

/-- The ambient context of one store call: the embedding model, the clock
value taken by `new Date().toISOString()`, the UUID produced by `randomUUID`,
and the configured embedding model id. -/
structure Env where
  embed : String → Vec
  now : String
  freshUuid : String
  modelId : String

/-- The optional `{title?, tags?, source?}` extras of a save or update call. -/
structure Extra where
  title : Option String
  tags : Option (List String)
  source : Option String
deriving DecidableEq

/-- An input item of a batch save. -/
structure PromptInput where
  text : String
  title : Option String
  tags : Option (List String)
  source : Option String
deriving DecidableEq

/-- Lookup in an association list of indexes by name. -/
def lookupIndexList : List (String × IndexState) → String → Option IndexState
  | [], _ => none
  | p :: t, name => if p.1 = name then some p.2 else lookupIndexList t name

/-- Look an index up by name (the `GetIndexCommand` probe). -/
def lookupIndex (st : StoreState) (name : String) : Option IndexState :=
  lookupIndexList st.indexes name

/-- Store an index in an association list, replacing an entry of the same
name and appending otherwise. -/
def setIndexList : List (String × IndexState) → String → IndexState → List (String × IndexState)
  | [], name, ix => [(name, ix)]
  | p :: t, name, ix =>
    if p.1 = name then (name, ix) :: t else p :: setIndexList t name ix

/-- Store an index under a name, replacing an existing one. -/
def setIndex (st : StoreState) (name : String) (ix : IndexState) : StoreState :=
  ⟨setIndexList st.indexes name ix⟩

/-- Look a record up by key (the `GetVectorsCommand` on one key). -/
def lookupVec : List StoredVec → String → Option StoredVec
  | [], _ => none
  | r :: t, key => if r.key = key then some r else lookupVec t key

/-- Write one vector: per-key overwrite, append when the key is new
(the `PutVectorsCommand` semantics for one record). -/
def putVec : List StoredVec → StoredVec → List StoredVec
  | [], v => [v]
  | r :: t, v => if r.key = v.key then v :: t else r :: putVec t v

/-- Write a batch of vectors in order. -/
def putVecs (recs : List StoredVec) (vs : List StoredVec) : List StoredVec :=
  vs.foldl putVec recs

/-- Write a batch of vectors into a named index of the store. -/
def putVecsInState (st : StoreState) (name : String) (vs : List StoredVec) : StoreState :=
  match lookupIndex st name with
  | some ix => setIndex st name ⟨ix.dimension, putVecs ix.records vs⟩
  | none => st

/-- The records of a named index, `[]` when the index does not exist. -/
def recordsOf (st : StoreState) (name : String) : List StoredVec :=
  match lookupIndex st name with
  | some ix => ix.records
  | none => []

/-! ### Store operations -/

/-- `ensureUserIndex` (awsVectorStore.ts:190) in the pure state model: return
the derived index name, creating an empty index of the probed embedding
dimension when absent. (The error classification of the existence probe is
modelled separately by `classifyEnsure`.) -/
def ensureUserIndex (env : Env) (st : StoreState) (userSub : String) : String × StoreState :=
  let name := userIndexName userSub
  match lookupIndex st name with
  | some _ => (name, st)
  | none => (name, setIndex st name ⟨(env.embed "dimension probe").length, []⟩)

/-- JavaScript `opt?.trim() || undefined` on an optional string: trim, and
treat the empty result as absent. -/
def trimOpt (o : Option String) : Option String :=
  match o with
  | some s =>
    let t := String.mk (trimChars s.data)
    if t = "" then none else some t
  | none => none

/-- JavaScript `opt?.length ? opt : undefined` on an optional array: an empty
array is falsy and becomes absent. -/
def tagsOpt (o : Option (List String)) : Option (List String) :=
  match o with
  | some l => if l.isEmpty then none else some l
  | none => none

/-- JavaScript `a || b` where `a` is an optional string and the empty string
is falsy. -/
def jsOrStr (a b : Option String) : Option String :=
  match a with
  | some s => if s = "" then b else some s
  | none => b

/-- JavaScript `a || now` where `a` is an optional string field. -/
def jsOrS (a : Option String) (b : String) : String :=
  match a with
  | some s => if s = "" then b else s
  | none => b

/-- The result of `upsertPrompt`. -/
structure UpsertResult where
  id : String
  indexName : String
  metadata : PromptMetadata
deriving DecidableEq

/-- `upsertPrompt` (awsVectorStore.ts:242): ensure the index, derive the key,
embed the raw text, build the metadata with both timestamps at now, and write
one vector. No blank-text validation happens here. -/
def upsertPrompt (env : Env) (st : StoreState) (userSub promptText : String)
    (extra : Extra) : UpsertResult × StoreState :=
  let (indexName, st1) := ensureUserIndex env st userSub
  let id := promptKeyFromText promptText
  let vector := env.embed promptText
  let md : PromptMetadata :=
    { schemaVersion := 1
      modelId := env.modelId
      text := promptText
      preview := previewText promptText
      title := trimOpt extra.title
      tags := tagsOpt extra.tags
      source := trimOpt extra.source
      uploadId := none
      chunkIndex := none
      chunkCount := none
      createdAt := env.now
      updatedAt := env.now
      length := promptText.data.length
      wordCount := wordCount promptText }
  let st2 := putVecsInState st1 indexName [⟨id, vector, md⟩]
  (⟨id, indexName, md⟩, st2)

/-- One saved entry of a batch result. -/
structure SavedItem where
  key : String
  metadata : PromptMetadata
deriving DecidableEq

/-- The result of `upsertPrompts`. -/
structure BatchResult where
  indexName : String
  uploadId : String
  saved : List SavedItem
deriving DecidableEq

/-- The de-duplication loop of `upsertPrompts` (awsVectorStore.ts:296): pair
each prompt with its derived key, dropping a prompt whose key was already
seen. -/
def dedupByKey (seen : List String) : List PromptInput → List (String × PromptInput)
  | [] => []
  | p :: rest =>
    let key := promptKeyFromText p.text
    if key ∈ seen then dedupByKey seen rest
    else (key, p) :: dedupByKey (key :: seen) rest

/-- The first input whose derived key is `k`. -/
def firstWithKey (k : String) : List PromptInput → Option PromptInput
  | [] => none
  | p :: t => if promptKeyFromText p.text = k then some p else firstWithKey k t

/-- The entry of key `k` in a keyed prompt list. -/
def findEntry (k : String) : List (String × PromptInput) → Option (String × PromptInput)
  | [] => none
  | q :: t => if q.1 = k then some q else findEntry k t

/-- The metadata of the `i`-th surviving item of a batch save
(awsVectorStore.ts:309). -/
def mkBatchMetadata (env : Env) (uploadId : String) (chunkCount i : Nat)
    (p : PromptInput) : PromptMetadata :=
  { schemaVersion := 1
    modelId := env.modelId
    text := p.text
    preview := previewText p.text
    title := trimOpt p.title
    tags := tagsOpt p.tags
    source := trimOpt p.source
    uploadId := some uploadId
    chunkIndex := some i
    chunkCount := some chunkCount
    createdAt := env.now
    updatedAt := env.now
    length := p.text.data.length
    wordCount := wordCount p.text }

/-- The indexed vector-building loop of `upsertPrompts` (awsVectorStore.ts:306),
with `i` the running chunk index. -/
def buildEntries (env : Env) (uploadId : String) (chunkCount : Nat) :
    Nat → List (String × PromptInput) → List StoredVec
  | _, [] => []
  | i, (key, p) :: rest =>
    ⟨key, env.embed p.text, mkBatchMetadata env uploadId chunkCount i p⟩ ::
      buildEntries env uploadId chunkCount (i + 1) rest

/-- `upsertPrompts` (awsVectorStore.ts:283): ensure the index, pick the upload
id, de-duplicate by derived key, assign chunk indices over the surviving set,
embed each survivor, and issue one multi-vector write unless nothing
survived. -/
def upsertPrompts (env : Env) (st : StoreState) (userSub : String)
    (prompts : List PromptInput) (uploadIdOpt : Option String) : BatchResult × StoreState :=
  let (indexName, st1) := ensureUserIndex env st userSub
  let uploadId := match uploadIdOpt with
    | some u => u
    | none => env.freshUuid
  let uniq := dedupByKey [] prompts
  let entries := buildEntries env uploadId uniq.length 0 uniq
  let saved := entries.map (fun v => (⟨v.key, v.metadata⟩ : SavedItem))
  if entries.isEmpty then (⟨indexName, uploadId, saved⟩, st1)
  else (⟨indexName, uploadId, saved⟩, putVecsInState st1 indexName entries)

/-- The result of `deletePrompt`. -/
structure DeleteResult where
  indexName : String
  deleted : Bool
deriving DecidableEq

/-- `deletePrompt` (awsVectorStore.ts:349): when the index is absent report
`deleted = false` without error; otherwise issue the delete and report
`deleted = true` whether or not the key was present. -/
def deletePrompt (st : StoreState) (userSub key : String) : DeleteResult × StoreState :=
  let indexName := userIndexName userSub
  match lookupIndex st indexName with
  | none => (⟨indexName, false⟩, st)
  | some ix =>
    (⟨indexName, true⟩,
      setIndex st indexName ⟨ix.dimension, ix.records.filter (fun r => !(r.key == key))⟩)

/-- The result of `updatePrompt`. -/
structure UpdateResult where
  indexName : String
  metadata : PromptMetadata
deriving DecidableEq

/-- `updatePrompt` (awsVectorStore.ts:367): require the index to exist, fetch
the existing metadata of the key for fallbacks, rebuild the metadata with
`createdAt` carried over and `updatedAt` at now, re-embed, and overwrite the
record at the same key. -/
def updatePrompt (env : Env) (st : StoreState) (userSub key promptText : String)
    (extra : Extra) : Except String (UpdateResult × StoreState) :=
  let indexName := userIndexName userSub
  match lookupIndex st indexName with
  | none => .error "User index does not exist"
  | some ix =>
    let existingMd : Option PromptMetadata := (lookupVec ix.records key).map (fun r => r.metadata)
    let md : PromptMetadata :=
      { schemaVersion := 1
        modelId := env.modelId
        text := promptText
        preview := previewText promptText
        title := jsOrStr (trimOpt extra.title) (jsOrStr (existingMd.bind (fun m => m.title)) none)
        tags := match extra.tags with
          | some l => if l.isEmpty then existingMd.bind (fun m => m.tags) else some l
          | none => existingMd.bind (fun m => m.tags)
        source := jsOrStr (trimOpt extra.source) (jsOrStr (existingMd.bind (fun m => m.source)) none)
        uploadId := none
        chunkIndex := none
        chunkCount := none
        createdAt := jsOrS (existingMd.map (fun m => m.createdAt)) env.now
        updatedAt := env.now
        length := promptText.data.length
        wordCount := wordCount promptText }
    let vec := env.embed promptText
    .ok (⟨indexName, md⟩,
      setIndex st indexName ⟨ix.dimension, putVec ix.records ⟨key, vec, md⟩⟩)

/-! ### The error classification of the existence probe (awsVectorStore.ts:200) -/

/-- A JavaScript error as the classification sees it: its `name`, or `none`
when the thrown value has no string `name`. -/
structure JsError where
  name : Option String
deriving DecidableEq

/-- `typeof error?.name === "string" ? error.name : ""`. -/
def jsErrorName (e : JsError) : String :=
  match e.name with
  | some s => s
  | none => ""

/-- `needle` begins `hay`. -/
def leadsWith : List Char → List Char → Bool
  | [], _ => true
  | _ :: _, [] => false
  | a :: as, b :: bs => a == b && leadsWith as bs

/-- JavaScript `hay.includes(needle)`. -/
def hasSub (hay needle : List Char) : Bool :=
  match hay with
  | [] => leadsWith needle []
  | _ :: t => leadsWith needle hay || hasSub t needle

/-- What `ensureUserIndex` does with its existence probe. -/
inductive EnsureAction where
  | useExisting
  | create
  | propagate (e : JsError)
deriving DecidableEq

/-- The catch classification of `ensureUserIndex` (awsVectorStore.ts:200):
on success reuse the index; on failure rethrow when the error has a nonempty
name that does not contain "notfound" case-insensitively, else create. -/
def classifyEnsure : Except JsError Unit → EnsureAction
  | .ok _ => .useExisting
  | .error e =>
    let name := jsErrorName e
    if name ≠ "" ∧ hasSub (name.data.map lowerChar) "notfound".data = false then .propagate e
    else .create

/-- Whether a failure indicates "not found": its name contains "notfound"
case-insensitively (the spec's reading of the existence-check failure). -/
def indicatesNotFound (e : JsError) : Bool :=
  hasSub ((jsErrorName e).data.map lowerChar) "notfound".data

/-! ### The tool layer of `server.ts` and the spec-modelled caller layer -/

/-- The blank-text guard of the `savePrompt` tool handler (server.ts:1102):
reject blank text before any store, embedding or write call. -/
def savePromptTool (env : Env) (st : StoreState) (userSub text : String)
    (extra : Extra) : Except String (UpsertResult × StoreState) :=
  if String.mk (trimChars text.data) = "" then .error "Missing required input: `text`."
  else .ok (upsertPrompt env st userSub text extra)

/-- The result shape of the batch save tool. -/
structure BatchToolResult where
  indexName : String
  uploadId : String
  count : Nat
  keys : List String
deriving DecidableEq

/-- Modelled from the spec: the batch-save tool handler is not under `src/`;
per §4.6 and §7 of the spec it drops items that are blank after normalization
("items that fail normalization (blank after title extraction) are silently
dropped from the batch"), passes the survivors to `upsertPrompts`, and
returns the saved count and keys. -/
def saveBatchTool (env : Env) (st : StoreState) (userSub : String)
    (items : List PromptInput) (uploadIdOpt : Option String) : BatchToolResult × StoreState :=
  let kept := items.filter (fun it => !(trimChars it.text.data).isEmpty)
  let (r, st') := upsertPrompts env st userSub kept uploadIdOpt
  (⟨r.indexName, r.uploadId, r.saved.length, r.saved.map (fun s => s.key)⟩, st')

/-- The smaller of two rationals, written out so that it evaluates by
kernel reduction; proved equal to `min` below. -/
def ratMin (a b : ℚ) : ℚ := if a ≤ b then a else b

/-- The best (minimum) distance among matches, `none` when there are none. -/
def bestDistance (ms : List (String × ℚ)) : Option ℚ :=
  match ms.map (fun m => m.2) with
  | [] => none
  | d :: ds => some (ds.foldl ratMin d)

/-- Modelled from the spec: the relative distance cutoff of the result
post-processing is not under `src/`; per §4.6 of the spec, after dedup the
best (minimum) distance is computed and every match whose distance exceeds
`min(absolute maximum, best + delta)` is discarded. -/
def relativeDistanceCutoff (absMax delta : ℚ) (ms : List (String × ℚ)) :
    List (String × ℚ) :=
  match ms.map (fun m => m.2) with
  | [] => ms
  | d :: ds =>
    let best := ds.foldl ratMin d
    let cutoff := ratMin absMax (best + delta)
    ms.filter (fun m => decide (m.2 ≤ cutoff))

/-! ### Concrete values used by the witnesses -/

/-- Placeholder metadata for `getD` defaults. -/
def mdDummy : PromptMetadata :=
  ⟨0, "", "", "", none, none, none, none, none, none, "", "", 0, 0⟩

/-- Placeholder stored vector for `getD` defaults. -/
def dummyVec : StoredVec := ⟨"", [], mdDummy⟩

/-- Placeholder saved item for `getD` defaults. -/
def dummySaved : SavedItem := ⟨"", mdDummy⟩

/-- Placeholder keyed prompt for `getD` defaults. -/
def dummyPair : String × PromptInput := ("", ⟨"", none, none, none⟩)

/-- A concrete environment for the first (saving) call. -/
def envW1 : Env := ⟨fun _ => [1], "T1", "uuid-1", "model-x"⟩

/-- A concrete environment for a later (updating) call, with a later clock. -/
def envW2 : Env := ⟨fun _ => [2], "T2", "uuid-2", "model-x"⟩

/-- The store after one concrete save into an empty bucket. -/
def stW1 : StoreState :=
  (upsertPrompt envW1 ⟨[]⟩ "user1" "hello world" ⟨none, none, none⟩).2

/-- The key of the concretely saved prompt. -/
def keyW : String := promptKeyFromText "hello world"

/-- The index holding the concretely saved prompt. -/
def ixW : IndexState := (lookupIndex stW1 (userIndexName "user1")).getD ⟨0, []⟩

/-- The concretely saved record. -/
def recW : StoredVec := (lookupVec ixW.records keyW).getD dummyVec

/-- The concrete batch of the de-duplication example. -/
def batchW : List PromptInput :=
  [⟨"Same prompt", none, none, none⟩, ⟨"same   prompt", none, none, none⟩,
   ⟨"Different prompt", none, none, none⟩]

/-- A concrete text whose normalized form has 161 characters. -/
def longText : String := String.mk (List.replicate 161 'a')

/-- The facts claim C5 asserts about one update call, relative to the
previously stored record `r`: the call succeeds, `createdAt` is carried over
from `r`, the text-derived fields are recomputed from the new text,
`updatedAt` is the call's clock value, the extras not overridden fall back to
the stored ones, and the record is overwritten in place at the same key. -/
def UpdatePreserves (env : Env) (st : StoreState) (u key text : String)
    (extra : Extra) (r : StoredVec) : Prop :=
  match updatePrompt env st u key text extra with
  | .error _ => False
  | .ok (res, st') =>
      res.indexName = userIndexName u
      ∧ res.metadata.createdAt = r.metadata.createdAt
      ∧ res.metadata.text = text
      ∧ res.metadata.preview = previewText text
      ∧ res.metadata.length = text.data.length
      ∧ res.metadata.wordCount = wordCount text
      ∧ res.metadata.updatedAt = env.now
      ∧ (extra.title = none → res.metadata.title = r.metadata.title)
      ∧ (extra.tags = none → res.metadata.tags = r.metadata.tags)
      ∧ (extra.source = none → res.metadata.source = r.metadata.source)
      ∧ lookupVec (recordsOf st' (userIndexName u)) key
          = some ⟨key, env.embed text, res.metadata⟩

/-! ### Helper lemmas on the store primitives -/

/-- Trimming the end never lengthens a character list. -/
theorem trimEndChars_length_le (cs : List Char) :
    (trimEndChars cs).length ≤ cs.length := by
  unfold trimEndChars
  calc (cs.reverse.dropWhile jsWs).reverse.length
      = (cs.reverse.dropWhile jsWs).length := List.length_reverse _
    _ ≤ cs.reverse.length := (List.dropWhile_sublist jsWs).length_le
    _ = cs.length := List.length_reverse _

/-- After `setIndex`, looking the same name up yields the stored index. -/
theorem lookupIndex_setIndex_self (st : StoreState) (name : String) (ix : IndexState) :
    lookupIndex (setIndex st name ix) name = some ix := by
  show lookupIndexList (setIndexList st.indexes name ix) name = some ix
  induction st.indexes with
  | nil => simp [setIndexList, lookupIndexList]
  | cons p t ih =>
    by_cases hp : p.1 = name
    · simp [setIndexList, lookupIndexList, hp]
    · simp [setIndexList, lookupIndexList, hp, ih]

/-- After `setIndex`, looking a different name up is unchanged. -/
theorem lookupIndex_setIndex_ne (st : StoreState) (name : String) (ix : IndexState)
    (name' : String) (hne : name' ≠ name) :
    lookupIndex (setIndex st name ix) name' = lookupIndex st name' := by
  show lookupIndexList (setIndexList st.indexes name ix) name'
      = lookupIndexList st.indexes name'
  have hnn : ¬(name = name') := fun hc => hne hc.symm
  induction st.indexes with
  | nil => simp [setIndexList, lookupIndexList, hnn]
  | cons p t ih =>
    by_cases hp : p.1 = name
    · simp [setIndexList, lookupIndexList, hp, hnn]
    · simp [setIndexList, lookupIndexList, hp, ih]

/-- After `putVec`, looking the written key up yields the written record. -/
theorem lookupVec_putVec_self (recs : List StoredVec) (v : StoredVec) :
    lookupVec (putVec recs v) v.key = some v := by
  induction recs with
  | nil => simp [putVec, lookupVec]
  | cons r t ih =>
    by_cases hr : r.key = v.key
    · simp [putVec, lookupVec, hr]
    · simp [putVec, lookupVec, hr, ih]

/-- `ensureUserIndex` never changes the records of any index: it either finds
the index or creates an empty one. -/
theorem recordsOf_ensureUserIndex (env : Env) (st : StoreState) (u name : String) :
    recordsOf (ensureUserIndex env st u).2 name = recordsOf st name := by
  unfold ensureUserIndex
  cases hl : lookupIndex st (userIndexName u) with
  | some ix => simp [hl]
  | none =>
    simp only [hl]
    by_cases hn : name = userIndexName u
    · subst hn
      simp [recordsOf, lookupIndex_setIndex_self, hl]
    · simp [recordsOf, lookupIndex_setIndex_ne st (userIndexName u) _ name hn]

/-! ### Claim theorems -/

/-- Claim C4: for every input text whose whitespace-normalized form is longer
than 160 characters, `previewText` returns at most 160 characters ending in
the ellipsis; for a normalized form of at most 160 characters it returns the
normalized text. -/
theorem previewText_truncation (text : String) :
    (160 < (trimChars (collapseRuns false text.data)).length →
      (previewText text).data.length ≤ 160
      ∧ (previewText text).data.getLast? = some '…')
    ∧ ((trimChars (collapseRuns false text.data)).length ≤ 160 →
      previewText text = String.mk (trimChars (collapseRuns false text.data))) := by
  have hpv : previewText text = if (trimChars (collapseRuns false text.data)).length ≤ 160
      then String.mk (trimChars (collapseRuns false text.data))
      else String.mk (trimEndChars ((trimChars (collapseRuns false text.data)).take 159)
        ++ ['…']) := rfl
  constructor
  · intro hlt
    have hni : ¬((trimChars (collapseRuns false text.data)).length ≤ 160) := by omega
    rw [hpv, if_neg hni]
    constructor
    · show (trimEndChars ((trimChars (collapseRuns false text.data)).take 159)
          ++ ['…']).length ≤ 160
      rw [List.length_append]
      have h1 := trimEndChars_length_le ((trimChars (collapseRuns false text.data)).take 159)
      have h2 := List.length_take_le 159 (trimChars (collapseRuns false text.data))
      simp only [List.length_singleton]
      omega
    · exact List.getLast?_concat _
  · intro hle
    rw [hpv, if_pos hle]

set_option maxRecDepth 100000 in
/-- Witness for C4: a 161-character text is truncated to at most 160
characters ending in the ellipsis, and a short text is returned normalized. -/
theorem previewText_truncation_witness :
    (160 < (trimChars (collapseRuns false longText.data)).length)
    ∧ ((previewText longText).data.length ≤ 160
      ∧ (previewText longText).data.getLast? = some '…')
    ∧ ((trimChars (collapseRuns false "hi".data)).length ≤ 160)
    ∧ previewText "hi" = String.mk (trimChars (collapseRuns false "hi".data)) :=
  ⟨by decide, (previewText_truncation longText).1 (by decide), by decide,
   (previewText_truncation "hi").2 (by decide)⟩

/-- Claim C6: when the user's index does not exist, `updatePrompt` fails with
the "index does not exist" error; no write happens and no index is created
(the error return carries no successor state). -/
theorem updatePrompt_missing_index_errors (env : Env) (st : StoreState)
    (userSub key text : String) (extra : Extra)
    (h : lookupIndex st (userIndexName userSub) = none) :
    updatePrompt env st userSub key text extra = .error "User index does not exist" := by
  simp [updatePrompt, h]

set_option maxRecDepth 100000 in
/-- Witness for C6: updating for a user who never saved fails with the
"index does not exist" error. -/
theorem updatePrompt_missing_index_errors_witness :
    (lookupIndex (⟨[]⟩ : StoreState) (userIndexName "ghost") = none)
    ∧ updatePrompt envW1 ⟨[]⟩ "ghost" "some-key" "new text" ⟨none, none, none⟩
        = .error "User index does not exist" :=
  ⟨by decide,
   updatePrompt_missing_index_errors envW1 ⟨[]⟩ "ghost" "some-key" "new text"
     ⟨none, none, none⟩ (by decide)⟩

/-- Claim C7: `deletePrompt` returns `deleted = false` without error and
leaves the store unchanged when the user's index does not exist, and returns
`deleted = true` whenever the index exists, for any key. -/
theorem deletePrompt_missing_vs_existing (st : StoreState) (userSub key : String) :
    (lookupIndex st (userIndexName userSub) = none →
      deletePrompt st userSub key = (⟨userIndexName userSub, false⟩, st))
    ∧ (∀ ix, lookupIndex st (userIndexName userSub) = some ix →
      (deletePrompt st userSub key).1.deleted = true) := by
  constructor
  · intro h
    simp [deletePrompt, h]
  · intro ix h
    simp [deletePrompt, h]

set_option maxRecDepth 100000 in
/-- Witness for C7: deleting for a user with no prior saves reports
`deleted = false`; deleting an absent key in an existing index reports
`deleted = true`. -/
theorem deletePrompt_missing_vs_existing_witness :
    (lookupIndex (⟨[]⟩ : StoreState) (userIndexName "ghost") = none)
    ∧ deletePrompt ⟨[]⟩ "ghost" "any-key" = (⟨userIndexName "ghost", false⟩, (⟨[]⟩ : StoreState))
    ∧ (lookupIndex stW1 (userIndexName "user1") = some ixW)
    ∧ (deletePrompt stW1 "user1" "absent-key").1.deleted = true :=
  ⟨by decide, (deletePrompt_missing_vs_existing ⟨[]⟩ "ghost" "any-key").1 (by decide),
   by decide, (deletePrompt_missing_vs_existing stW1 "user1" "absent-key").2 ixW (by decide)⟩

set_option maxRecDepth 100000 in
/-- Counterexample to claim C8 as stated: the Prompt Store's own
`upsertPrompt` does not guard against blank text; called directly with a
whitespace-only prompt it embeds and writes a record whose text is the blank
input, rather than rejecting it. -/
theorem upsertPrompt_blank_writes_record :
    ((upsertPrompt envW1 ⟨[]⟩ "user1" "   " ⟨none, none, none⟩).2.indexes.map
      (fun p => p.2.records.length) = [1])
    ∧ (upsertPrompt envW1 ⟨[]⟩ "user1" "   " ⟨none, none, none⟩).1.metadata.text = "   " := by
  decide

/-- Claim C8 (amended): blank text is rejected by the tool layer's
`savePrompt` handler with a validation failure before any store, embedding or
write call; the Prompt Store's `upsertPrompt` itself has no blank-text
guard. -/
theorem savePromptTool_rejects_blank (env : Env) (st : StoreState)
    (userSub text : String) (extra : Extra) (h : trimChars text.data = []) :
    savePromptTool env st userSub text extra = .error "Missing required input: `text`." := by
  simp [savePromptTool, h]

set_option maxRecDepth 100000 in
/-- Witness for C8 (amended): saving whitespace-only text through the tool
layer fails validation. -/
theorem savePromptTool_rejects_blank_witness :
    (trimChars ("   " : String).data = [])
    ∧ savePromptTool envW1 ⟨[]⟩ "user1" "   " ⟨none, none, none⟩
        = .error "Missing required input: `text`." :=
  ⟨by decide,
   savePromptTool_rejects_blank envW1 ⟨[]⟩ "user1" "   " ⟨none, none, none⟩ (by decide)⟩

/-- Claim C9: a batch consisting only of whitespace-only strings is dropped
entirely; the batch save returns zero saved records and an empty key list
without error, and no index's records change (reason: the filtering layer is
modelled from the spec, `src` holding only `upsertPrompts`). -/
theorem saveBatchTool_blank_batch_empty (env : Env) (st : StoreState) (u : String)
    (items : List PromptInput) (uid : Option String)
    (h : ∀ it ∈ items, trimChars it.text.data = []) :
    (saveBatchTool env st u items uid).1.count = 0
    ∧ (saveBatchTool env st u items uid).1.keys = []
    ∧ (∀ name, recordsOf (saveBatchTool env st u items uid).2 name = recordsOf st name) := by
  have hkept : items.filter (fun it => !(trimChars it.text.data).isEmpty) = [] := by
    rw [List.filter_eq_nil_iff]
    intro it hit
    simp [h it hit]
  have hopen : saveBatchTool env st u items uid
      = (⟨(ensureUserIndex env st u).1,
          (match uid with | some v => v | none => env.freshUuid), 0, []⟩,
         (ensureUserIndex env st u).2) := by
    simp [saveBatchTool, hkept, upsertPrompts, dedupByKey, buildEntries]
  rw [hopen]
  refine ⟨rfl, rfl, fun name => ?_⟩
  exact recordsOf_ensureUserIndex env st u name

set_option maxRecDepth 100000 in
/-- Witness for C9: saving a batch of two whitespace-only strings returns
zero saved records and an empty key list, with every index's records
unchanged. -/
theorem saveBatchTool_blank_batch_empty_witness :
    (∀ it ∈ [(⟨"   ", none, none, none⟩ : PromptInput), ⟨" ", none, none, none⟩],
      trimChars it.text.data = [])
    ∧ ((saveBatchTool envW1 ⟨[]⟩ "user1"
        [⟨"   ", none, none, none⟩, ⟨" ", none, none, none⟩] none).1.count = 0
      ∧ (saveBatchTool envW1 ⟨[]⟩ "user1"
        [⟨"   ", none, none, none⟩, ⟨" ", none, none, none⟩] none).1.keys = []
      ∧ (∀ name, recordsOf (saveBatchTool envW1 ⟨[]⟩ "user1"
          [⟨"   ", none, none, none⟩, ⟨" ", none, none, none⟩] none).2 name
          = recordsOf ⟨[]⟩ name)) :=
  ⟨by decide,
   saveBatchTool_blank_batch_empty envW1 ⟨[]⟩ "user1"
     [⟨"   ", none, none, none⟩, ⟨" ", none, none, none⟩] none (by decide)⟩

/-- Counterexample to claim C10 as stated: a failure of the existence check
whose thrown value has no string `name` does not indicate "not found", yet
`ensureUserIndex` proceeds to create the index instead of propagating it. -/
theorem classifyEnsure_nameless_error_creates :
    classifyEnsure (.error ⟨none⟩) = .create
    ∧ indicatesNotFound ⟨none⟩ = false := by
  decide

/-- Claim C10 (amended): on a failed existence check `ensureUserIndex`
proceeds to create the index iff the error's name is empty (or not a string)
or contains "notfound" case-insensitively; it propagates the error iff the
name is a nonempty string not containing "notfound"; a successful check
reuses the index. -/
theorem classifyEnsure_classification (e : JsError) :
    (classifyEnsure (.error e) = .create
      ↔ (jsErrorName e = "" ∨ indicatesNotFound e = true))
    ∧ (classifyEnsure (.error e) = .propagate e
      ↔ (jsErrorName e ≠ "" ∧ indicatesNotFound e = false))
    ∧ classifyEnsure (.ok ()) = .useExisting := by
  unfold classifyEnsure indicatesNotFound jsErrorName
  by_cases h1 : (match e.name with | some s => s | none => "") = ""
  · simp [h1]
  · by_cases h2 : hasSub ((match e.name with | some s => s | none => "").data.map lowerChar)
        "notfound".data = false
    · simp [h1, h2]
    · simp [h1, h2]

/-- Claim C3: after de-duplication the post-processing keeps exactly the
matches whose distance is at most min(absolute max, best + delta), where best
is the minimum surviving distance; in particular distances 0.10, 0.15, 0.50
with absolute max 0.8 and delta 0.08 give cutoff 0.18 and only the first two
matches survive (reason: the cutoff layer is modelled from the spec). -/
theorem relativeDistanceCutoff_drops_above_cutoff (absMax delta best : ℚ)
    (ms : List (String × ℚ)) (hbest : bestDistance ms = some best) :
    (∀ x y : ℚ, ratMin x y = min x y)
    ∧ (relativeDistanceCutoff absMax delta ms
      = ms.filter (fun m => decide (m.2 ≤ ratMin absMax (best + delta))))
    ∧ (∀ m ∈ relativeDistanceCutoff absMax delta ms, m.2 ≤ min absMax (best + delta))
    ∧ (relativeDistanceCutoff (4/5) (2/25)
        [("a", (1 : ℚ)/10), ("b", 3/20), ("c", 1/2)] = [("a", (1 : ℚ)/10), ("b", 3/20)]) := by
  have hmin : ∀ x y : ℚ, ratMin x y = min x y := fun x y => (min_def x y).symm
  have heq : relativeDistanceCutoff absMax delta ms
      = ms.filter (fun m => decide (m.2 ≤ ratMin absMax (best + delta))) := by
    unfold relativeDistanceCutoff
    unfold bestDistance at hbest
    cases hm : ms.map (fun m => m.2) with
    | nil =>
      rw [hm] at hbest
      exact Option.noConfusion hbest
    | cons d ds =>
      rw [hm] at hbest
      have hb : best = ds.foldl ratMin d := (Option.some_inj.mp hbest).symm
      rw [hb]
  refine ⟨hmin, heq, fun m hm => ?_, by norm_num [relativeDistanceCutoff, ratMin]⟩
  rw [heq] at hm
  rw [← hmin]
  exact of_decide_eq_true (List.mem_filter.mp hm).2

/-- Witness for C3: on the concrete distance list the best distance is 0.10
and exactly the two matches within the 0.18 cutoff survive. -/
theorem relativeDistanceCutoff_drops_above_cutoff_witness :
    (bestDistance [("a", (1 : ℚ)/10), ("b", 3/20), ("c", 1/2)] = some ((1 : ℚ)/10))
    ∧ ((∀ x y : ℚ, ratMin x y = min x y)
      ∧ (relativeDistanceCutoff (4/5) (2/25) [("a", (1 : ℚ)/10), ("b", 3/20), ("c", 1/2)]
          = [("a", (1 : ℚ)/10), ("b", 3/20), ("c", 1/2)].filter
              (fun m => decide (m.2 ≤ ratMin (4/5) ((1 : ℚ)/10 + 2/25))))
      ∧ (∀ m ∈ relativeDistanceCutoff (4/5) (2/25)
            [("a", (1 : ℚ)/10), ("b", 3/20), ("c", 1/2)],
          m.2 ≤ min (4/5) ((1 : ℚ)/10 + 2/25))
      ∧ (relativeDistanceCutoff (4/5) (2/25)
          [("a", (1 : ℚ)/10), ("b", 3/20), ("c", 1/2)] = [("a", (1 : ℚ)/10), ("b", 3/20)])) :=
  ⟨by norm_num [bestDistance, ratMin],
   relativeDistanceCutoff_drops_above_cutoff (4/5) (2/25) ((1 : ℚ)/10)
     [("a", (1 : ℚ)/10), ("b", 3/20), ("c", 1/2)] (by norm_num [bestDistance, ratMin])⟩

set_option maxRecDepth 100000 in
/-- Claim C2: the derived key is invariant under whitespace and case changes
(texts with equal canonical forms get equal keys); texts whose canonical
forms differ get different keys provided their truncated content hashes
differ (the claim's "no hash collisions assumed"); and the two concrete
spellings of "hello world" get the same key. -/
theorem promptKeyFromText_invariance :
    (∀ a b : String, normalizePromptForKey a = normalizePromptForKey b →
      promptKeyFromText a = promptKeyFromText b)
    ∧ (∀ a b : String, normalizePromptForKey a ≠ normalizePromptForKey b →
      keyHash a ≠ keyHash b → promptKeyFromText a ≠ promptKeyFromText b)
    ∧ promptKeyFromText "Hello   world" = promptKeyFromText "hello world" := by
  refine ⟨fun a b h => ?_, fun a b hn hh => ?_, by decide⟩
  · unfold promptKeyFromText keyHash
    rw [h]
  · intro hk
    apply hh
    have hdata : ('p' :: '-' :: keyHash a) = ('p' :: '-' :: keyHash b) :=
      congrArg String.data hk
    exact (List.cons.injEq _ _ _ _).mp ((List.cons.injEq _ _ _ _).mp hdata).2 |>.2

set_option maxRecDepth 100000 in
/-- Witness for C2: two whitespace/case variants agree on keys, and two
distinct canonical texts have distinct hashes and hence distinct keys. -/
theorem promptKeyFromText_invariance_witness :
    (normalizePromptForKey "Same prompt" = normalizePromptForKey "same   prompt")
    ∧ promptKeyFromText "Same prompt" = promptKeyFromText "same   prompt"
    ∧ (normalizePromptForKey "same prompt" ≠ normalizePromptForKey "different prompt")
    ∧ (keyHash "same prompt" ≠ keyHash "different prompt")
    ∧ promptKeyFromText "same prompt" ≠ promptKeyFromText "different prompt" :=
  ⟨by decide, promptKeyFromText_invariance.1 _ _ (by decide), by decide, by decide,
   promptKeyFromText_invariance.2.1 _ _ (by decide) (by decide)⟩

/-- Claim C5: on an existing record, update keeps `createdAt`, replaces the
text, recomputes the text-derived fields, stamps `updatedAt` with the
update-time clock, falls back to the stored title/tags/source when not
overridden, and overwrites the record in place. The well-formedness
hypotheses mirror what every saved record satisfies: a nonempty `createdAt`
and no stored empty-string title or source. -/
theorem updatePrompt_preserves_createdAt (env : Env) (st : StoreState)
    (u key text : String) (extra : Extra) (ix : IndexState) (r : StoredVec)
    (hix : lookupIndex st (userIndexName u) = some ix)
    (hrec : lookupVec ix.records key = some r)
    (hcr : r.metadata.createdAt ≠ "")
    (hti : r.metadata.title ≠ some "")
    (hsr : r.metadata.source ≠ some "") :
    UpdatePreserves env st u key text extra r := by
  unfold UpdatePreserves
  simp only [updatePrompt, hix, hrec]
  refine ⟨trivial, ?_, trivial, trivial, trivial, trivial, trivial, ?_, ?_, ?_, ?_⟩
  · simp [jsOrS, hcr]
  · intro het
    rw [het]
    cases hT : r.metadata.title with
    | none => simp [trimOpt, jsOrStr, hT]
    | some s =>
      have hs : ¬(s = "") := fun hc => hti (by rw [hT, hc])
      simp [trimOpt, jsOrStr, hT, hs]
  · intro het
    rw [het]
    simp
  · intro het
    rw [het]
    cases hS : r.metadata.source with
    | none => simp [trimOpt, jsOrStr, hS]
    | some s =>
      have hs : ¬(s = "") := fun hc => hsr (by rw [hS, hc])
      simp [trimOpt, jsOrStr, hS, hs]
  · simp only [recordsOf, lookupIndex_setIndex_self]
    exact lookupVec_putVec_self ix.records _

set_option maxRecDepth 1000000 in
/-- Witness for C5: save "hello world" at clock T1, update it at clock T2;
the update succeeds, keeps `createdAt = "T1"` and overwrites in place. -/
theorem updatePrompt_preserves_createdAt_witness :
    (lookupIndex stW1 (userIndexName "user1") = some ixW)
    ∧ (lookupVec ixW.records keyW = some recW)
    ∧ (recW.metadata.createdAt ≠ "")
    ∧ (recW.metadata.title ≠ some "")
    ∧ (recW.metadata.source ≠ some "")
    ∧ UpdatePreserves envW2 stW1 "user1" keyW "fresh text" ⟨none, none, none⟩ recW :=
  ⟨by decide, by decide, by decide, by decide, by decide,
   updatePrompt_preserves_createdAt envW2 stW1 "user1" keyW "fresh text"
     ⟨none, none, none⟩ ixW recW (by decide) (by decide) (by decide) (by decide) (by decide)⟩

/-- The de-duplication loop keeps, for every key, exactly the first input of
that key among those not already seen. -/
theorem dedupByKey_findEntry (k : String) (ps : List PromptInput) :
    ∀ seen : List String,
      findEntry k (dedupByKey seen ps) =
        if k ∈ seen then none
        else (firstWithKey k ps).map (fun p => (k, p)) := by
  induction ps with
  | nil => intro seen; simp [dedupByKey, findEntry, firstWithKey]
  | cons p t ih =>
    intro seen
    by_cases hseen : promptKeyFromText p.text ∈ seen
    · rw [show dedupByKey seen (p :: t) = dedupByKey seen t by
        simp [dedupByKey, hseen]]
      rw [ih seen]
      by_cases hks : k ∈ seen
      · simp [hks]
      · have hpk : ¬(promptKeyFromText p.text = k) := fun hc => hks (hc ▸ hseen)
        simp [hks, firstWithKey, hpk]
    · rw [show dedupByKey seen (p :: t)
          = (promptKeyFromText p.text, p) :: dedupByKey (promptKeyFromText p.text :: seen) t by
        simp [dedupByKey, hseen]]
      by_cases hpk : promptKeyFromText p.text = k
      · have hks : ¬(k ∈ seen) := fun hc => hseen (hpk ▸ hc)
        simp [findEntry, hpk, hks, firstWithKey]
      · have hne : ¬((promptKeyFromText p.text, p).1 = k) := hpk
        rw [show findEntry k ((promptKeyFromText p.text, p)
              :: dedupByKey (promptKeyFromText p.text :: seen) t)
            = findEntry k (dedupByKey (promptKeyFromText p.text :: seen) t) by
          simp [findEntry, hne]]
        rw [ih (promptKeyFromText p.text :: seen)]
        have hmem : (k ∈ promptKeyFromText p.text :: seen) ↔ (k ∈ seen) := by
          simp [List.mem_cons]
          intro hc
          exact absurd hc.symm hpk
        by_cases hks : k ∈ seen
        · simp [hks, hmem.mpr hks]
        · have : ¬(k ∈ promptKeyFromText p.text :: seen) := fun hc => hks (hmem.mp hc)
          simp [hks, this, firstWithKey, hpk]

/-- The keys surviving de-duplication are pairwise distinct and none was
already seen. -/
theorem dedupByKey_keys_nodup (ps : List PromptInput) :
    ∀ seen : List String,
      (∀ q ∈ dedupByKey seen ps, ¬(q.1 ∈ seen))
      ∧ ((dedupByKey seen ps).map (fun q => q.1)).Nodup := by
  induction ps with
  | nil => intro seen; simp [dedupByKey]
  | cons p t ih =>
    intro seen
    by_cases hseen : promptKeyFromText p.text ∈ seen
    · rw [show dedupByKey seen (p :: t) = dedupByKey seen t by simp [dedupByKey, hseen]]
      exact ih seen
    · rw [show dedupByKey seen (p :: t)
          = (promptKeyFromText p.text, p) :: dedupByKey (promptKeyFromText p.text :: seen) t by
        simp [dedupByKey, hseen]]
      have iht := ih (promptKeyFromText p.text :: seen)
      constructor
      · intro q hq
        rcases List.mem_cons.mp hq with hq | hq
        · rw [hq]
          exact hseen
        · intro hc
          exact iht.1 q hq (List.mem_cons_of_mem _ hc)
      · rw [List.map_cons, List.nodup_cons]
        refine ⟨?_, iht.2⟩
        intro hc
        rcases List.mem_map.mp hc with ⟨q, hq, hkey⟩
        exact iht.1 q hq (hkey ▸ List.mem_cons_self _ _)

/-- De-duplication is a sublist selection: survivors keep their input order
and identity. -/
theorem dedupByKey_sublist (ps : List PromptInput) :
    ∀ seen : List String, ((dedupByKey seen ps).map (fun q => q.2)).Sublist ps := by
  induction ps with
  | nil => intro seen; simp [dedupByKey]
  | cons p t ih =>
    intro seen
    by_cases hseen : promptKeyFromText p.text ∈ seen
    · rw [show dedupByKey seen (p :: t) = dedupByKey seen t by simp [dedupByKey, hseen]]
      exact (ih seen).cons p
    · rw [show dedupByKey seen (p :: t)
          = (promptKeyFromText p.text, p) :: dedupByKey (promptKeyFromText p.text :: seen) t by
        simp [dedupByKey, hseen]]
      rw [List.map_cons]
      exact (ih _).cons₂ p

/-- Every surviving entry carries the key derived from its own text. -/
theorem dedupByKey_key_eq (ps : List PromptInput) :
    ∀ (seen : List String) (q : String × PromptInput),
      q ∈ dedupByKey seen ps → q.1 = promptKeyFromText q.2.text := by
  induction ps with
  | nil => intro seen q hq; simp [dedupByKey] at hq
  | cons p t ih =>
    intro seen q hq
    by_cases hseen : promptKeyFromText p.text ∈ seen
    · rw [show dedupByKey seen (p :: t) = dedupByKey seen t by simp [dedupByKey, hseen]] at hq
      exact ih seen q hq
    · rw [show dedupByKey seen (p :: t)
          = (promptKeyFromText p.text, p) :: dedupByKey (promptKeyFromText p.text :: seen) t by
        simp [dedupByKey, hseen]] at hq
      rcases List.mem_cons.mp hq with hq | hq
      · rw [hq]
      · exact ih _ q hq

/-- The vector-building loop produces one entry per surviving input. -/
theorem buildEntries_length (env : Env) (uid : String) (cc : Nat)
    (l : List (String × PromptInput)) : ∀ i : Nat,
    (buildEntries env uid cc i l).length = l.length := by
  induction l with
  | nil => intro i; rfl
  | cons q t ih => intro i; simp [buildEntries, ih (i + 1)]

/-- The keys of the built entries are the keys of the surviving inputs. -/
theorem buildEntries_map_key (env : Env) (uid : String) (cc : Nat)
    (l : List (String × PromptInput)) : ∀ i : Nat,
    (buildEntries env uid cc i l).map (fun v => v.key) = l.map (fun q => q.1) := by
  induction l with
  | nil => intro i; rfl
  | cons q t ih => intro i; simp [buildEntries, ih (i + 1)]

/-- The `j`-th built entry embeds the `j`-th surviving input and stamps it
with chunk index `i + j`. -/
theorem buildEntries_getD (env : Env) (uid : String) (cc : Nat)
    (l : List (String × PromptInput)) : ∀ (i j : Nat), j < l.length →
    (buildEntries env uid cc i l).getD j dummyVec =
      ⟨(l.getD j dummyPair).1, env.embed (l.getD j dummyPair).2.text,
        mkBatchMetadata env uid cc (i + j) (l.getD j dummyPair).2⟩ := by
  induction l with
  | nil => intro i j h; simp at h
  | cons q t ih =>
    intro i j h
    cases j with
    | zero => rfl
    | succ j' =>
      have h' : j' < t.length := by simpa using h
      have harith : (i + 1) + j' = i + (j' + 1) := by omega
      show (buildEntries env uid cc (i + 1) t).getD j' dummyVec = _
      rw [ih (i + 1) j' h', harith]
      rfl

/-- Mapping a stored entry to its saved item commutes with indexing. -/
theorem getD_map_saved (l : List StoredVec) : ∀ j : Nat, j < l.length →
    (l.map (fun v => (⟨v.key, v.metadata⟩ : SavedItem))).getD j dummySaved
      = ⟨(l.getD j dummyVec).key, (l.getD j dummyVec).metadata⟩ := by
  induction l with
  | nil => intro j h; simp at h
  | cons v t ih =>
    intro j h
    cases j with
    | zero => rfl
    | succ j' => simpa using ih j' (by simpa using h)

/-- The saved list of a batch upsert is the mapped image of the built
entries (for the call's upload id), in both branches of the final write. -/
theorem upsertPrompts_saved (env : Env) (st : StoreState) (u : String)
    (ps : List PromptInput) (uid : Option String) :
    ∃ uidv : String, (upsertPrompts env st u ps uid).1.saved
      = (buildEntries env uidv
          (dedupByKey [] ps).length 0 (dedupByKey [] ps)).map
            (fun v => (⟨v.key, v.metadata⟩ : SavedItem)) := by
  refine ⟨match uid with | some v => v | none => env.freshUuid, ?_⟩
  unfold upsertPrompts
  by_cases he : (buildEntries env (match uid with | some v => v | none => env.freshUuid)
      (dedupByKey [] ps).length 0 (dedupByKey [] ps)).isEmpty
  · simp [he]
  · simp [he]

set_option maxRecDepth 1000000 in
/-- Claim C1: a batch save de-duplicates its input by content-derived key
with the first occurrence winning (characterized by `findEntry`/
`firstWithKey`, pairwise-distinct keys and sublist order preservation);
chunk indices are positions in the de-duplicated list and the chunk count is
its size; and the concrete three-element batch saves exactly 2 records. -/
theorem upsertPrompts_dedup_assigns_chunks (env : Env) (st : StoreState)
    (u : String) (prompts : List PromptInput) (uid : Option String) :
    ((upsertPrompts env st u prompts uid).1.saved.map (fun s => s.key)
        = (dedupByKey [] prompts).map (fun q => q.1))
    ∧ (((dedupByKey [] prompts).map (fun q => q.1)).Nodup)
    ∧ (((dedupByKey [] prompts).map (fun q => q.2)).Sublist prompts)
    ∧ (∀ k, findEntry k (dedupByKey [] prompts)
        = (firstWithKey k prompts).map (fun p => (k, p)))
    ∧ ((upsertPrompts env st u prompts uid).1.saved.length
        = (dedupByKey [] prompts).length)
    ∧ (∀ j, j < (upsertPrompts env st u prompts uid).1.saved.length →
        ((upsertPrompts env st u prompts uid).1.saved.getD j dummySaved).metadata.chunkIndex
            = some j
        ∧ ((upsertPrompts env st u prompts uid).1.saved.getD j dummySaved).metadata.chunkCount
            = some (dedupByKey [] prompts).length)
    ∧ ((upsertPrompts env st u batchW uid).1.saved.length = 2) := by
  obtain ⟨uidv, hsv⟩ := upsertPrompts_saved env st u prompts uid
  have hlen : (upsertPrompts env st u prompts uid).1.saved.length
      = (dedupByKey [] prompts).length := by
    rw [hsv, List.length_map, buildEntries_length]
  refine ⟨?_, (dedupByKey_keys_nodup prompts []).2, dedupByKey_sublist prompts [],
    fun k => by simpa using dedupByKey_findEntry k prompts [], hlen, ?_, ?_⟩
  · rw [hsv, List.map_map]
    exact buildEntries_map_key env uidv (dedupByKey [] prompts).length
      (dedupByKey [] prompts) 0
  · intro j hj
    have hj2 : j < (dedupByKey [] prompts).length := by rw [← hlen]; exact hj
    have hj' : j < (buildEntries env uidv (dedupByKey [] prompts).length 0
        (dedupByKey [] prompts)).length := by
      rw [buildEntries_length]
      exact hj2
    rw [hsv, getD_map_saved _ j hj',
      buildEntries_getD env uidv (dedupByKey [] prompts).length (dedupByKey [] prompts) 0 j hj2]
    constructor
    · show (mkBatchMetadata env uidv (dedupByKey [] prompts).length (0 + j) _).chunkIndex
          = some j
      rw [Nat.zero_add]
      rfl
    · rfl
  · obtain ⟨uidw, hsw⟩ := upsertPrompts_saved env st u batchW uid
    rw [hsw, List.length_map, buildEntries_length]
    decide

set_option maxRecDepth 1000000 in
/-- Witness for C1: on the concrete batch the first saved record has chunk
index 0 and chunk count equal to the de-duplicated size, and exactly two
records are saved. -/
theorem upsertPrompts_dedup_assigns_chunks_witness :
    (0 < (upsertPrompts envW1 ⟨[]⟩ "user1" batchW none).1.saved.length)
    ∧ (((upsertPrompts envW1 ⟨[]⟩ "user1" batchW none).1.saved.getD 0 dummySaved).metadata.chunkIndex
          = some 0
      ∧ ((upsertPrompts envW1 ⟨[]⟩ "user1" batchW none).1.saved.getD 0 dummySaved).metadata.chunkCount
          = some (dedupByKey [] batchW).length)
    ∧ ((upsertPrompts envW1 ⟨[]⟩ "user1" batchW none).1.saved.length = 2) :=
  ⟨by decide,
   (upsertPrompts_dedup_assigns_chunks envW1 ⟨[]⟩ "user1" batchW none).2.2.2.2.2.1 0 (by decide),
   (upsertPrompts_dedup_assigns_chunks envW1 ⟨[]⟩ "user1" batchW none).2.2.2.2.2.2⟩

end PromptBank
